import Mathlib

/-!
Shallow embedding of `src/s3_sync.py` (class `S3BucketSync`), the replication-plan
execution model of the s3bucketsync repository.

Modelling conventions:
* The S3 API is an oracle `Env`: which buckets `head_bucket` accepts, what
  `list_objects_v2` pagination returns (or a `ClientError`), and the outcome of
  each `copy_object` request.
* The mutable object state (`self.total_files_copied`, `self.total_files_failed`)
  becomes an explicit `SyncState`, extended with two ghost fields recording the
  observable API interactions: the list of copy requests issued (with their
  boolean result) and the buckets on which a listing was attempted.
* Python exceptions that escape a function become `Except PyErr`; functions that
  catch all their exceptions internally (like `_copy_object` and `_list_objects`)
  stay total. The only exceptions that can escape `_process_bucket_config` in the
  source are the `KeyError`s raised by `config['source_bucket']` /
  `config['destination_buckets']`, so a bucket config is embedded with `Option`
  fields and those lookups are the `Except.error` cases.
* Logging, the tqdm progress bar and `time.sleep` have no effect on the data
  model and are not represented.
-/

/-- One entry of a `list_objects_v2` page's `Contents`: its `Key` plus metadata
the program never reads (only `obj['Key']` is accessed). -/
structure ObjectRecord where
  key : String
deriving Repr, DecidableEq

/-- One page returned by the `list_objects_v2` paginator; `contents = none`
models a page without a `'Contents'` entry. -/
structure Page where
  contents : Option (List ObjectRecord)
deriving Repr, DecidableEq

/-- The arguments of one `s3_client.copy_object` call:
`CopySource = {Bucket: copySourceBucket, Key: copySourceKey}`,
`Bucket = bucket`, `Key = key`. -/
structure CopyRequest where
  copySourceBucket : String
  copySourceKey : String
  bucket : String
  key : String
deriving Repr, DecidableEq

/-- Outcome of a `copy_object` API call: success, a `botocore` `ClientError`,
or any other exception (both failure kinds are caught by `_copy_object`). -/
inductive CopyOutcome where
  | success
  | clientError (msg : String)
  | unexpectedError (msg : String)
deriving Repr, DecidableEq

/-- Result of a `head_bucket` API call: success or a `ClientError` carrying an
error code (`'404'`, `'403'`, ...). -/
inductive HeadOutcome where
  | ok
  | clientError (code : String)
deriving Repr, DecidableEq

/-- A Python exception escaping a modelled function. The only ones possible in
the embedded fragment are the `KeyError`s of `_process_bucket_config`. -/
inductive PyErr where
  | keyError (field : String)
deriving Repr, DecidableEq

/-- The S3 service as seen by the program: responses to `head_bucket`,
`list_objects_v2` pagination (a `ClientError` or the list of pages), and
`copy_object`. -/
structure Env where
  headBucket : String → HeadOutcome
  listPages : String → Except String (List Page)
  copyResult : CopyRequest → CopyOutcome

/-- One entry of `config['buckets']`: a dict that may or may not carry the
`source_bucket` and `destination_buckets` keys (`none` = key absent, so the
subscript raises `KeyError`). -/
structure BucketConfig where
  source_bucket : Option String
  destination_buckets : Option (List String)
deriving Repr, DecidableEq

/-- The run state: the two counters of `S3BucketSync.__init__`, plus ghost
traces of every `copy_object` request issued (with its boolean result) and of
every bucket a listing was attempted on. -/
structure SyncState where
  total_files_copied : Nat
  total_files_failed : Nat
  attempts : List (CopyRequest × Bool)
  listedBuckets : List String
deriving Repr, DecidableEq

/-- `__init__`: both counters start at 0 (and the ghost traces empty). -/
def initState : SyncState :=
  { total_files_copied := 0, total_files_failed := 0, attempts := [], listedBuckets := [] }

/-- `_validate_bucket_exists`: `head_bucket` succeeds → `True`; any
`ClientError` (404, 403 or other) is caught, logged and gives `False`. -/
def validate_bucket_exists (env : Env) (bucket_name : String) : Bool :=
  match env.headBucket bucket_name with
  | HeadOutcome.ok => true
  | HeadOutcome.clientError _ => false

/-- `_list_objects`: paginate `list_objects_v2`, extending `objects` with each
page's `Contents` when present; on `ClientError` return `[]` instead of
raising. The ghost trace records that a listing was attempted on the bucket. -/
def list_objects (env : Env) (bucket_name : String) (s : SyncState) :
    List ObjectRecord × SyncState :=
  let s := { s with listedBuckets := s.listedBuckets ++ [bucket_name] }
  match env.listPages bucket_name with
  | Except.error _ => ([], s)
  | Except.ok pages =>
      (pages.foldl (fun objects page =>
        match page.contents with
        | some objs => objects ++ objs
        | none => objects) [], s)

/-- `_copy_object`: issue a `copy_object` call whose `CopySource` is
`{Bucket: source_bucket, Key: obj_key}` and whose destination is
`Bucket = dest_bucket`, `Key = obj_key`; return `True` on success and `False`
on `ClientError` or any other exception (both caught). The issued request is
returned so the caller can record it in the ghost trace. -/
def copy_object (env : Env) (source_bucket dest_bucket obj_key : String) :
    CopyRequest × Bool :=
  let req : CopyRequest :=
    { copySourceBucket := source_bucket, copySourceKey := obj_key,
      bucket := dest_bucket, key := obj_key }
  match env.copyResult req with
  | CopyOutcome.success => (req, true)
  | CopyOutcome.clientError _ => (req, false)
  | CopyOutcome.unexpectedError _ => (req, false)

/-- Body of the inner loop of `_copy_objects_to_destinations`: one
`(object, destination)` pair — call `_copy_object`, then increment
`total_files_copied` on `True` and `total_files_failed` on `False`
(the `pbar.update` and `time.sleep` have no data effect). -/
def copyPair (env : Env) (source_bucket dest_bucket obj_key : String)
    (s : SyncState) : SyncState :=
  let r := copy_object env source_bucket dest_bucket obj_key
  let s1 := { s with attempts := s.attempts ++ [r] }
  if r.2 then
    { s1 with total_files_copied := s1.total_files_copied + 1 }
  else
    { s1 with total_files_failed := s1.total_files_failed + 1 }

/-- The inner `for dest_bucket in dest_buckets` loop for one object. -/
def copyToDests (env : Env) (source_bucket obj_key : String)
    (dest_buckets : List String) (s : SyncState) : SyncState :=
  dest_buckets.foldl (fun s dest_bucket => copyPair env source_bucket dest_bucket obj_key s) s

/-- `_copy_objects_to_destinations`: if `total_operations == 0` return at once,
else run the nested loops — outer over `objects` (listing order), inner over
`dest_buckets` (configuration order), the key taken from `obj['Key']`. -/
def copy_objects_to_destinations (env : Env) (source_bucket : String)
    (objects : List ObjectRecord) (dest_buckets : List String)
    (s : SyncState) : SyncState :=
  let total_operations := objects.length * dest_buckets.length
  if total_operations = 0 then s
  else
    objects.foldl (fun s obj => copyToDests env source_bucket obj.key dest_buckets s) s

/-- The `valid_dest_buckets` accumulation loop of `_process_bucket_config`:
append each destination that validates, in order. -/
def collectValidDests (env : Env) (dest_buckets : List String) : List String :=
  dest_buckets.foldl
    (fun acc dest_bucket =>
      if validate_bucket_exists env dest_bucket then acc ++ [dest_bucket] else acc) []

/-- `_process_bucket_config`: read the two config keys (a missing key raises
`KeyError`), validate the source (return on failure), validate each destination
independently (return if none remain), list the source objects (return if the
list is empty), then dispatch the copies. -/
def process_bucket_config (env : Env) (config : BucketConfig) (s : SyncState) :
    Except PyErr SyncState :=
  match config.source_bucket with
  | none => Except.error (PyErr.keyError "source_bucket")
  | some source_bucket =>
    match config.destination_buckets with
    | none => Except.error (PyErr.keyError "destination_buckets")
    | some dest_buckets =>
      if !validate_bucket_exists env source_bucket then
        Except.ok s
      else
        let valid_dest_buckets := collectValidDests env dest_buckets
        if valid_dest_buckets.isEmpty then
          Except.ok s
        else
          let r := list_objects env source_bucket s
          if r.1.isEmpty then
            Except.ok r.2
          else
            Except.ok (copy_objects_to_destinations env source_bucket r.1 valid_dest_buckets r.2)

/-- The `for config in self.bucket_configs` loop of `sync_buckets`: any
exception from `_process_bucket_config` is caught (leaving the state as it was,
since the only escaping exceptions occur before any mutation) and the loop
continues with the next config. -/
def sync_loop (env : Env) (bucket_configs : List BucketConfig) (s : SyncState) : SyncState :=
  bucket_configs.foldl
    (fun s config =>
      match process_bucket_config env config s with
      | Except.ok s1 => s1
      | Except.error _ => s) s

/-- `sync_buckets` after a successful bootstrap and config load: run the
per-config loop from the freshly initialised counters. -/
def sync_buckets (env : Env) (bucket_configs : List BucketConfig) : SyncState :=
  sync_loop env bucket_configs initState

/-- The process exit status determined by the end of `sync_buckets`:
`sys.exit(1)` when `total_files_failed > 0`, otherwise the run returns
normally and the process exits 0. -/
def sync_exit_code (env : Env) (bucket_configs : List BucketConfig) : Nat :=
  if (sync_buckets env bucket_configs).total_files_failed > 0 then 1 else 0

/-- The copy attempts the nested dispatch loops issue for a source bucket,
an object list and a destination list: outer iteration over objects, inner
over destinations. -/
def attemptsFor (env : Env) (source_bucket : String) (objects : List ObjectRecord)
    (dest_buckets : List String) : List (CopyRequest × Bool) :=
  objects.flatMap (fun obj =>
    dest_buckets.map (fun dest_bucket => copy_object env source_bucket dest_bucket obj.key))

/-- Number of successful attempts in a trace. -/
def succCount (l : List (CopyRequest × Bool)) : Nat :=
  (l.filter (fun a => a.2)).length

/-- Number of failed attempts in a trace. -/
def failCount (l : List (CopyRequest × Bool)) : Nat :=
  (l.filter (fun a => !a.2)).length

/-- Record a batch of attempts on a state: extend the trace and add the
success/failure tallies to the counters. -/
def applyAttempts (s : SyncState) (l : List (CopyRequest × Bool)) : SyncState :=
  { s with
    total_files_copied := s.total_files_copied + succCount l
    total_files_failed := s.total_files_failed + failCount l
    attempts := s.attempts ++ l }

/-! ### Concrete fixtures used to exercise the embedding -/

/-- An environment where every bucket validates, every listing returns one page
with objects `x` and `y`, and every copy succeeds. -/
def envOk : Env :=
  { headBucket := fun _ => HeadOutcome.ok
    listPages := fun _ => Except.ok [{ contents := some [{ key := "x" }, { key := "y" }] }]
    copyResult := fun _ => CopyOutcome.success }

/-- An environment where bucket `A` does not exist but every other bucket
validates; listing returns one object `x`; every copy succeeds. -/
def envDropA : Env :=
  { headBucket := fun b => if b = "A" then HeadOutcome.clientError "404" else HeadOutcome.ok
    listPages := fun _ => Except.ok [{ contents := some [{ key := "x" }] }]
    copyResult := fun _ => CopyOutcome.success }

/-- An environment where no bucket validates. -/
def envAllInvalid : Env :=
  { headBucket := fun _ => HeadOutcome.clientError "403"
    listPages := fun _ => Except.ok []
    copyResult := fun _ => CopyOutcome.success }

/-- An environment where only bucket `S` validates. -/
def envOnlySourceValid : Env :=
  { headBucket := fun b => if b = "S" then HeadOutcome.ok else HeadOutcome.clientError "404"
    listPages := fun _ => Except.ok [{ contents := some [{ key := "x" }] }]
    copyResult := fun _ => CopyOutcome.success }

/-- An environment where every bucket validates but listing raises a
`ClientError`. -/
def envListFails : Env :=
  { headBucket := fun _ => HeadOutcome.ok
    listPages := fun _ => Except.error "AccessDenied"
    copyResult := fun _ => CopyOutcome.success }

/-- A well-formed config entry: source `S`, destinations `[D]`. -/
def cfgSD : BucketConfig :=
  { source_bucket := some "S", destination_buckets := some ["D"] }

/-- A config entry missing both keys. -/
def cfgNoKeys : BucketConfig :=
  { source_bucket := none, destination_buckets := none }

/-- A config entry with a source but no `destination_buckets` key. -/
def cfgNoDests : BucketConfig :=
  { source_bucket := some "S", destination_buckets := none }

/-- A config entry with source `S` and destinations `[A, B]`. -/
def cfgSAB : BucketConfig :=
  { source_bucket := some "S", destination_buckets := some ["A", "B"] }

/-! ### Helper lemmas about attempt accounting -/

lemma succCount_append (l1 l2 : List (CopyRequest × Bool)) :
    succCount (l1 ++ l2) = succCount l1 + succCount l2 := by
  simp [succCount, List.filter_append]

lemma failCount_append (l1 l2 : List (CopyRequest × Bool)) :
    failCount (l1 ++ l2) = failCount l1 + failCount l2 := by
  simp [failCount, List.filter_append]

lemma succCount_add_failCount (l : List (CopyRequest × Bool)) :
    succCount l + failCount l = l.length := by
  induction l with
  | nil => simp [succCount, failCount]
  | cons a l ih =>
      simp only [succCount, failCount, List.filter_cons] at *
      cases h : a.2 <;> simp [h] <;> omega

lemma applyAttempts_nil (s : SyncState) : applyAttempts s [] = s := by
  simp [applyAttempts, succCount, failCount]

lemma applyAttempts_append (s : SyncState) (l1 l2 : List (CopyRequest × Bool)) :
    applyAttempts s (l1 ++ l2) = applyAttempts (applyAttempts s l1) l2 := by
  simp [applyAttempts, succCount_append, failCount_append]
  omega

lemma copyPair_eq (env : Env) (sb db k : String) (s : SyncState) :
    copyPair env sb db k s = applyAttempts s [copy_object env sb db k] := by
  cases h : (copy_object env sb db k).2 <;>
    simp [copyPair, applyAttempts, succCount, failCount, h, List.filter_cons]

lemma copyToDests_eq (env : Env) (sb k : String) (dests : List String) (s : SyncState) :
    copyToDests env sb k dests s
      = applyAttempts s (dests.map (fun db => copy_object env sb db k)) := by
  induction dests generalizing s with
  | nil => simp [copyToDests, applyAttempts_nil]
  | cons d ds ih =>
      have step : copyToDests env sb k (d :: ds) s
          = copyToDests env sb k ds (copyPair env sb d k s) := by
        simp [copyToDests]
      rw [step, ih, copyPair_eq, ← applyAttempts_append]
      simp

lemma attemptsFor_nil_right (env : Env) (sb : String) (objects : List ObjectRecord) :
    attemptsFor env sb objects [] = [] := by
  induction objects with
  | nil => simp [attemptsFor]
  | cons o os ih =>
      simp only [attemptsFor, List.flatMap_cons, List.map_nil, List.nil_append] at ih ⊢
      exact ih

lemma copyLoop_eq (env : Env) (sb : String) (objects : List ObjectRecord)
    (dests : List String) (s : SyncState) :
    objects.foldl (fun s obj => copyToDests env sb obj.key dests s) s
      = applyAttempts s (attemptsFor env sb objects dests) := by
  induction objects generalizing s with
  | nil => simp [attemptsFor, applyAttempts_nil]
  | cons o os ih =>
      have step : (o :: os).foldl (fun s obj => copyToDests env sb obj.key dests s) s
          = os.foldl (fun s obj => copyToDests env sb obj.key dests s)
              (copyToDests env sb o.key dests s) := by
        simp
      have split : attemptsFor env sb (o :: os) dests
          = (dests.map (fun db => copy_object env sb db o.key)) ++ attemptsFor env sb os dests := by
        simp [attemptsFor]
      rw [step, ih, copyToDests_eq, split, applyAttempts_append]

lemma copy_objects_spec (env : Env) (sb : String) (objects : List ObjectRecord)
    (dests : List String) (s : SyncState) :
    copy_objects_to_destinations env sb objects dests s
      = applyAttempts s (attemptsFor env sb objects dests) := by
  unfold copy_objects_to_destinations
  by_cases h : objects.length * dests.length = 0
  · rcases Nat.mul_eq_zero.mp h with h0 | h0
    · have : objects = [] := List.length_eq_zero.mp h0
      subst this
      simp [attemptsFor, applyAttempts_nil]
    · have : dests = [] := List.length_eq_zero.mp h0
      subst this
      simp [attemptsFor_nil_right, applyAttempts_nil]
  · simp only [h, if_false, copyLoop_eq]

lemma attemptsFor_length (env : Env) (sb : String) (objects : List ObjectRecord)
    (dests : List String) :
    (attemptsFor env sb objects dests).length = objects.length * dests.length := by
  induction objects with
  | nil => simp [attemptsFor]
  | cons o os ih =>
      simp only [attemptsFor, List.flatMap_cons, List.length_append, List.length_map,
        List.length_cons] at *
      rw [ih]
      ring

/-! ### Helper lemmas about validation, listing, and the per-config step -/

lemma collectValidDests_eq (env : Env) (dests : List String) :
    collectValidDests env dests = dests.filter (fun d => validate_bucket_exists env d) := by
  have gen : ∀ (l acc : List String),
      l.foldl (fun acc d => if validate_bucket_exists env d then acc ++ [d] else acc) acc
        = acc ++ l.filter (fun d => validate_bucket_exists env d) := by
    intro l
    induction l with
    | nil => intro acc; simp
    | cons d ds ih =>
        intro acc
        cases h : validate_bucket_exists env d <;>
          simp [List.filter_cons, h, ih]
  simpa [collectValidDests] using gen dests []

lemma list_objects_state (env : Env) (b : String) (s : SyncState) :
    (list_objects env b s).2 = { s with listedBuckets := s.listedBuckets ++ [b] } := by
  unfold list_objects
  cases env.listPages b <;> simp

lemma copy_object_fst (env : Env) (sb db k : String) :
    (copy_object env sb db k).1
      = { copySourceBucket := sb, copySourceKey := k, bucket := db, key := k } := by
  cases h : env.copyResult { copySourceBucket := sb, copySourceKey := k, bucket := db, key := k } <;>
    simp [copy_object, h]

lemma attemptsFor_mem (env : Env) (sb : String) (objs : List ObjectRecord)
    (dests : List String) :
    ∀ a ∈ attemptsFor env sb objs dests,
      a.1.key = a.1.copySourceKey ∧ a.1.copySourceBucket = sb ∧ a.1.bucket ∈ dests := by
  intro a ha
  simp only [attemptsFor, List.mem_flatMap, List.mem_map] at ha
  obtain ⟨o, ho, d, hd, rfl⟩ := ha
  simp [copy_object_fst, hd]

lemma process_missing_source (env : Env) (cfg : BucketConfig) (s : SyncState)
    (h : cfg.source_bucket = none) :
    process_bucket_config env cfg s = Except.error (PyErr.keyError "source_bucket") := by
  simp [process_bucket_config, h]

lemma process_missing_dests (env : Env) (cfg : BucketConfig) (s : SyncState) (src : String)
    (h1 : cfg.source_bucket = some src) (h2 : cfg.destination_buckets = none) :
    process_bucket_config env cfg s = Except.error (PyErr.keyError "destination_buckets") := by
  simp [process_bucket_config, h1, h2]

lemma process_invalid_source (env : Env) (cfg : BucketConfig) (s : SyncState)
    (src : String) (dests : List String)
    (h1 : cfg.source_bucket = some src) (h2 : cfg.destination_buckets = some dests)
    (h3 : validate_bucket_exists env src = false) :
    process_bucket_config env cfg s = Except.ok s := by
  simp [process_bucket_config, h1, h2, h3]

lemma process_no_valid_dests (env : Env) (cfg : BucketConfig) (s : SyncState)
    (src : String) (dests : List String)
    (h1 : cfg.source_bucket = some src) (h2 : cfg.destination_buckets = some dests)
    (h4 : dests.filter (fun d => validate_bucket_exists env d) = []) :
    process_bucket_config env cfg s = Except.ok s := by
  cases h3 : validate_bucket_exists env src
  · simp [process_bucket_config, h1, h2, h3]
  · simp [process_bucket_config, h1, h2, h3, collectValidDests_eq, h4]

lemma process_valid_listing_empty (env : Env) (cfg : BucketConfig) (s : SyncState)
    (src : String) (dests : List String)
    (h1 : cfg.source_bucket = some src) (h2 : cfg.destination_buckets = some dests)
    (h3 : validate_bucket_exists env src = true)
    (h4 : dests.filter (fun d => validate_bucket_exists env d) ≠ [])
    (h5 : (list_objects env src s).1 = []) :
    process_bucket_config env cfg s = Except.ok (list_objects env src s).2 := by
  simp [process_bucket_config, h1, h2, h3, collectValidDests_eq,
    List.isEmpty_iff, h4, h5]

lemma process_valid_listing_nonempty (env : Env) (cfg : BucketConfig) (s : SyncState)
    (src : String) (dests : List String)
    (h1 : cfg.source_bucket = some src) (h2 : cfg.destination_buckets = some dests)
    (h3 : validate_bucket_exists env src = true)
    (h4 : dests.filter (fun d => validate_bucket_exists env d) ≠ [])
    (h5 : (list_objects env src s).1 ≠ []) :
    process_bucket_config env cfg s
      = Except.ok (copy_objects_to_destinations env src (list_objects env src s).1
          (dests.filter (fun d => validate_bucket_exists env d)) (list_objects env src s).2) := by
  simp [process_bucket_config, h1, h2, h3, collectValidDests_eq,
    List.isEmpty_iff, h4, h5]

lemma process_ok_shape (env : Env) (cfg : BucketConfig) (s s1 : SyncState)
    (h : process_bucket_config env cfg s = Except.ok s1) :
    ∃ l, s1.attempts = s.attempts ++ l
      ∧ s1.total_files_copied = s.total_files_copied + succCount l
      ∧ s1.total_files_failed = s.total_files_failed + failCount l
      ∧ ∀ a ∈ l, a.1.key = a.1.copySourceKey := by
  cases hs : cfg.source_bucket with
  | none =>
      rw [process_missing_source env cfg s hs] at h
      exact absurd h (by simp)
  | some src =>
    cases hd : cfg.destination_buckets with
    | none =>
        rw [process_missing_dests env cfg s src hs hd] at h
        exact absurd h (by simp)
    | some dests =>
      by_cases h3 : validate_bucket_exists env src = true
      · by_cases h4 : dests.filter (fun d => validate_bucket_exists env d) = []
        · rw [process_no_valid_dests env cfg s src dests hs hd h4] at h
          refine ⟨[], ?_⟩
          simp only [Except.ok.injEq] at h
          subst h
          simp [succCount, failCount]
        · by_cases h5 : (list_objects env src s).1 = []
          · rw [process_valid_listing_empty env cfg s src dests hs hd h3 h4 h5] at h
            refine ⟨[], ?_⟩
            simp only [Except.ok.injEq] at h
            subst h
            simp [list_objects_state, succCount, failCount]
          · rw [process_valid_listing_nonempty env cfg s src dests hs hd h3 h4 h5] at h
            simp only [Except.ok.injEq] at h
            subst h
            refine ⟨attemptsFor env src (list_objects env src s).1
              (dests.filter (fun d => validate_bucket_exists env d)), ?_, ?_, ?_, ?_⟩
            · rw [copy_objects_spec]
              simp [applyAttempts, list_objects_state]
            · rw [copy_objects_spec]
              simp [applyAttempts, list_objects_state]
            · rw [copy_objects_spec]
              simp [applyAttempts, list_objects_state]
            · intro a ha
              exact (attemptsFor_mem env src _ _ a ha).1
      · rw [process_invalid_source env cfg s src dests hs hd (by simpa using h3)] at h
        refine ⟨[], ?_⟩
        simp only [Except.ok.injEq] at h
        subst h
        simp [succCount, failCount]

lemma sync_loop_cons_error (env : Env) (c : BucketConfig) (rest : List BucketConfig)
    (s : SyncState) (e : PyErr) (h : process_bucket_config env c s = Except.error e) :
    sync_loop env (c :: rest) s = sync_loop env rest s := by
  simp [sync_loop, h]

lemma sync_loop_cons_ok (env : Env) (c : BucketConfig) (rest : List BucketConfig)
    (s s1 : SyncState) (h : process_bucket_config env c s = Except.ok s1) :
    sync_loop env (c :: rest) s = sync_loop env rest s1 := by
  simp [sync_loop, h]

lemma sync_loop_append (env : Env) (l1 l2 : List BucketConfig) (s : SyncState) :
    sync_loop env (l1 ++ l2) s = sync_loop env l2 (sync_loop env l1 s) := by
  simp [sync_loop, List.foldl_append]

lemma sync_loop_shape (env : Env) (cfgs : List BucketConfig) (s : SyncState) :
    ∃ l, (sync_loop env cfgs s).attempts = s.attempts ++ l
      ∧ (sync_loop env cfgs s).total_files_copied = s.total_files_copied + succCount l
      ∧ (sync_loop env cfgs s).total_files_failed = s.total_files_failed + failCount l
      ∧ ∀ a ∈ l, a.1.key = a.1.copySourceKey := by
  induction cfgs generalizing s with
  | nil => exact ⟨[], by simp [sync_loop, succCount, failCount]⟩
  | cons c cs ih =>
      cases hp : process_bucket_config env c s with
      | error e =>
          rw [sync_loop_cons_error env c cs s e hp]
          exact ih s
      | ok s1 =>
          rw [sync_loop_cons_ok env c cs s s1 hp]
          obtain ⟨l1, ha1, hc1, hf1, hk1⟩ := process_ok_shape env c s s1 hp
          obtain ⟨l2, ha2, hc2, hf2, hk2⟩ := ih s1
          refine ⟨l1 ++ l2, ?_, ?_, ?_, ?_⟩
          · rw [ha2, ha1, List.append_assoc]
          · rw [hc2, hc1, succCount_append]; omega
          · rw [hf2, hf1, failCount_append]; omega
          · intro a ha
            rcases List.mem_append.mp ha with hm | hm
            · exact hk1 a hm
            · exact hk2 a hm

lemma failCount_eq_zero_iff (l : List (CopyRequest × Bool)) :
    failCount l = 0 ↔ ∀ a ∈ l, a.2 = true := by
  simp [failCount, List.length_eq_zero, List.filter_eq_nil_iff]

lemma failCount_pos_iff (l : List (CopyRequest × Bool)) :
    0 < failCount l ↔ ∃ a ∈ l, a.2 = false := by
  rw [Nat.pos_iff_ne_zero, Ne, failCount_eq_zero_iff]
  push_neg
  simp [Bool.not_eq_true]

lemma sync_buckets_attempts (env : Env) (cfgs : List BucketConfig) :
    ∃ l, (sync_buckets env cfgs).attempts = l
      ∧ (sync_buckets env cfgs).total_files_copied = succCount l
      ∧ (sync_buckets env cfgs).total_files_failed = failCount l
      ∧ ∀ a ∈ l, a.1.key = a.1.copySourceKey := by
  obtain ⟨l, hl, hc, hf, hk⟩ := sync_loop_shape env cfgs initState
  exact ⟨l, by simpa [initState] using hl, by simpa [initState] using hc,
    by simpa [initState] using hf, hk⟩

/-! ### Claim theorems -/

/-- C1: the copy dispatcher performs exactly one copy attempt per
(object, destination) pair — `|objects| * |destinations|` attempts in all —
appended to the trace in nested order: outer iteration over the objects in
listing order, inner iteration over the destinations in configuration order
(`attemptsFor` is literally that nested flatMap/map). -/
theorem dispatch_one_attempt_per_pair_in_nested_order (env : Env)
    (source_bucket : String) (objects : List ObjectRecord)
    (dest_buckets : List String) (s : SyncState) :
    (copy_objects_to_destinations env source_bucket objects dest_buckets s).attempts
      = s.attempts ++ attemptsFor env source_bucket objects dest_buckets
    ∧ (attemptsFor env source_bucket objects dest_buckets).length
      = objects.length * dest_buckets.length := by
  constructor
  · rw [copy_objects_spec]
    simp [applyAttempts]
  · exact attemptsFor_length env source_bucket objects dest_buckets

/-- C2: at the end of a run the failed counter equals the exact number of
failed copy attempts, the copied counter equals the total number of attempts
minus the failures, and the process exit status is 0 exactly when every
attempt succeeded and 1 exactly when at least one attempt failed. -/
theorem run_failure_accounting_and_exit_code (env : Env) (cfgs : List BucketConfig) :
    (sync_buckets env cfgs).total_files_failed = failCount (sync_buckets env cfgs).attempts
    ∧ (sync_buckets env cfgs).total_files_copied
        = (sync_buckets env cfgs).attempts.length - (sync_buckets env cfgs).total_files_failed
    ∧ ((∀ a ∈ (sync_buckets env cfgs).attempts, a.2 = true) ↔ sync_exit_code env cfgs = 0)
    ∧ ((∃ a ∈ (sync_buckets env cfgs).attempts, a.2 = false) ↔ sync_exit_code env cfgs = 1) := by
  obtain ⟨l, hl, hc, hf, -⟩ := sync_buckets_attempts env cfgs
  have hlen := succCount_add_failCount l
  have hexit : sync_exit_code env cfgs
      = if 0 < failCount l then 1 else 0 := by
    simp [sync_exit_code, hf]
  refine ⟨by rw [hl, hf], by rw [hl, hc, hf]; omega, ?_, ?_⟩
  · rw [hl, hexit, ← failCount_eq_zero_iff]
    constructor
    · intro h0
      simp [h0]
    · intro h0
      by_cases hp : 0 < failCount l
      · simp [hp] at h0
      · omega
  · rw [hl, hexit, ← failCount_pos_iff]
    constructor
    · intro hp
      simp [hp]
    · intro h0
      by_cases hp : 0 < failCount l
      · exact hp
      · simp [hp] at h0

/-- C3: an exception raised while processing one mapping is caught by the run
loop, which proceeds to the remaining mappings from the state as it was before
that mapping — a single mapping's failure never aborts the run. -/
theorem mapping_exception_never_aborts_run (env : Env) (pre : List BucketConfig)
    (c : BucketConfig) (post : List BucketConfig) (s : SyncState) (e : PyErr)
    (h : process_bucket_config env c (sync_loop env pre s) = Except.error e) :
    sync_loop env (pre ++ c :: post) s = sync_loop env post (sync_loop env pre s) := by
  rw [sync_loop_append, sync_loop_cons_error env c post _ e h]

/-- Concrete instance of C3: a config whose processing raises a `KeyError`
between two well-formed configs does not stop the run. -/
theorem mapping_exception_never_aborts_run_witness :
    sync_loop envOk ([cfgSD] ++ cfgNoKeys :: [cfgSD]) initState
      = sync_loop envOk [cfgSD] (sync_loop envOk [cfgSD] initState) :=
  mapping_exception_never_aborts_run envOk [cfgSD] cfgNoKeys [cfgSD] initState
    (PyErr.keyError "source_bucket") (by rfl)

/-- C4: for a mapping whose destination list mixes invalid and valid
containers, the step succeeds and the copy attempts it appends are exactly one
per (listed object, validated destination) pair, with the invalid destinations
dropped and the valid ones kept in their configuration order; every appended
attempt targets a destination that passed validation. -/
theorem invalid_dests_dropped_valid_kept (env : Env) (cfg : BucketConfig)
    (s : SyncState) (src : String) (dests : List String)
    (h1 : cfg.source_bucket = some src)
    (h2 : cfg.destination_buckets = some dests)
    (h3 : validate_bucket_exists env src = true)
    (h4 : dests.filter (fun d => validate_bucket_exists env d) ≠ []) :
    ∃ s1, process_bucket_config env cfg s = Except.ok s1
      ∧ s1.attempts = s.attempts
          ++ attemptsFor env src (list_objects env src s).1
              (dests.filter (fun d => validate_bucket_exists env d))
      ∧ ∀ a ∈ s1.attempts.drop s.attempts.length,
          validate_bucket_exists env a.1.bucket = true := by
  have key : ∀ (s1 : SyncState), s1.attempts = s.attempts
          ++ attemptsFor env src (list_objects env src s).1
              (dests.filter (fun d => validate_bucket_exists env d)) →
      ∀ a ∈ s1.attempts.drop s.attempts.length,
        validate_bucket_exists env a.1.bucket = true := by
    intro s1 hs1 a ha
    rw [hs1, List.drop_left] at ha
    have hmem := (attemptsFor_mem env src _ _ a ha).2.2
    exact (List.mem_filter.mp hmem).2
  by_cases h5 : (list_objects env src s).1 = []
  · refine ⟨(list_objects env src s).2,
      process_valid_listing_empty env cfg s src dests h1 h2 h3 h4 h5, ?_, ?_⟩
    · rw [h5, attemptsFor]
      simp [list_objects_state]
    · apply key
      rw [h5, attemptsFor]
      simp [list_objects_state]
  · have hatt : (copy_objects_to_destinations env src (list_objects env src s).1
        (dests.filter (fun d => validate_bucket_exists env d))
        (list_objects env src s).2).attempts
      = s.attempts ++ attemptsFor env src (list_objects env src s).1
          (dests.filter (fun d => validate_bucket_exists env d)) := by
      rw [copy_objects_spec]
      simp [applyAttempts, list_objects_state]
    exact ⟨_, process_valid_listing_nonempty env cfg s src dests h1 h2 h3 h4 h5,
      hatt, key _ hatt⟩

/-- Concrete instance of C4: destinations `[A, B]` with `A` invalid and `B`
valid — copies are attempted only against `B`, for the listed object. -/
theorem invalid_dests_dropped_valid_kept_witness :
    ∃ s1, process_bucket_config envDropA cfgSAB initState = Except.ok s1
      ∧ s1.attempts = initState.attempts
          ++ attemptsFor envDropA "S" (list_objects envDropA "S" initState).1
              (["A", "B"].filter (fun d => validate_bucket_exists envDropA d))
      ∧ ∀ a ∈ s1.attempts.drop initState.attempts.length,
          validate_bucket_exists envDropA a.1.bucket = true :=
  invalid_dests_dropped_valid_kept envDropA cfgSAB initState "S" ["A", "B"]
    (by rfl) (by rfl) (by decide) (by decide)

/-- C5: a mapping whose source fails validation produces neither a listing nor
any copy attempt (the step returns the state unchanged) and the run loop
continues with the next mapping from that same state. -/
theorem invalid_source_mapping_skipped (env : Env) (cfg : BucketConfig)
    (s : SyncState) (rest : List BucketConfig) (src : String) (dests : List String)
    (h1 : cfg.source_bucket = some src)
    (h2 : cfg.destination_buckets = some dests)
    (h3 : validate_bucket_exists env src = false) :
    process_bucket_config env cfg s = Except.ok s
    ∧ sync_loop env (cfg :: rest) s = sync_loop env rest s := by
  have hp := process_invalid_source env cfg s src dests h1 h2 h3
  exact ⟨hp, sync_loop_cons_ok env cfg rest s s hp⟩

/-- Concrete instance of C5: in an environment where no bucket validates, the
mapping is a no-op and the following mapping is still processed. -/
theorem invalid_source_mapping_skipped_witness :
    process_bucket_config envAllInvalid cfgSD initState = Except.ok initState
    ∧ sync_loop envAllInvalid (cfgSD :: [cfgSAB]) initState
        = sync_loop envAllInvalid [cfgSAB] initState :=
  invalid_source_mapping_skipped envAllInvalid cfgSD initState [cfgSAB] "S" ["D"]
    (by rfl) (by rfl) (by decide)

/-- C6: a mapping in which no destination passes validation is skipped
entirely: the per-config step returns the state unchanged — no listing is
recorded, no attempt is issued, and both counters keep their values. -/
theorem no_valid_dest_mapping_skipped (env : Env) (cfg : BucketConfig)
    (s : SyncState) (src : String) (dests : List String)
    (h1 : cfg.source_bucket = some src)
    (h2 : cfg.destination_buckets = some dests)
    (h3 : ∀ d ∈ dests, validate_bucket_exists env d = false) :
    process_bucket_config env cfg s = Except.ok s := by
  have h4 : dests.filter (fun d => validate_bucket_exists env d) = [] := by
    rw [List.filter_eq_nil_iff]
    intro d hd
    simp [h3 d hd]
  exact process_no_valid_dests env cfg s src dests h1 h2 h4

/-- Concrete instance of C6: a valid source with destinations `[A, B]` that
both fail validation leaves the state untouched. -/
theorem no_valid_dest_mapping_skipped_witness :
    process_bucket_config envOnlySourceValid cfgSAB initState = Except.ok initState :=
  no_valid_dest_mapping_skipped envOnlySourceValid cfgSAB initState "S" ["A", "B"]
    (by rfl) (by rfl) (by decide)

/-- C7: when listing the source raises, the lister returns an empty list
instead of propagating the error; the mapping then yields zero copy attempts
(only the ghost record of the listing call changes), the step returns `ok`
rather than an error, and the run loop continues with the next mapping. -/
theorem listing_failure_treated_as_empty (env : Env) (cfg : BucketConfig)
    (s : SyncState) (rest : List BucketConfig) (src : String) (dests : List String)
    (e : String)
    (h1 : cfg.source_bucket = some src)
    (h2 : cfg.destination_buckets = some dests)
    (h3 : validate_bucket_exists env src = true)
    (h4 : dests.filter (fun d => validate_bucket_exists env d) ≠ [])
    (h5 : env.listPages src = Except.error e) :
    (list_objects env src s).1 = []
    ∧ process_bucket_config env cfg s
        = Except.ok { s with listedBuckets := s.listedBuckets ++ [src] }
    ∧ sync_loop env (cfg :: rest) s
        = sync_loop env rest { s with listedBuckets := s.listedBuckets ++ [src] } := by
  have hempty : (list_objects env src s).1 = [] := by
    simp [list_objects, h5]
  have hp := process_valid_listing_empty env cfg s src dests h1 h2 h3 h4 hempty
  rw [list_objects_state] at hp
  exact ⟨hempty, hp, sync_loop_cons_ok env cfg rest s _ hp⟩

/-- Concrete instance of C7: listing `S` fails with a `ClientError`; the step
succeeds with zero attempts and the run proceeds to the next mapping. -/
theorem listing_failure_treated_as_empty_witness :
    (list_objects envListFails "S" initState).1 = []
    ∧ process_bucket_config envListFails cfgSD initState
        = Except.ok { initState with listedBuckets := initState.listedBuckets ++ ["S"] }
    ∧ sync_loop envListFails (cfgSD :: [cfgSAB]) initState
        = sync_loop envListFails [cfgSAB]
            { initState with listedBuckets := initState.listedBuckets ++ ["S"] } :=
  listing_failure_treated_as_empty envListFails cfgSD initState [cfgSAB] "S" ["D"]
    "AccessDenied" (by rfl) (by rfl) (by decide) (by decide) (by rfl)

/-- C8: every copy attempt appends exactly one attempt and increments exactly
one of the two counters by exactly one, in the direction of the copy result:
`total_files_copied` by 1 and `total_files_failed` by 0 when `_copy_object`
returned success, `total_files_failed` by 1 and `total_files_copied` by 0 on
any failure; and across any run segment neither counter ever decreases. -/
theorem counters_monotone_one_increment_per_attempt (env : Env)
    (sb db k : String) (s : SyncState) (cfgs : List BucketConfig) :
    (copyPair env sb db k s).total_files_copied
        = s.total_files_copied + (if (copy_object env sb db k).2 then 1 else 0)
    ∧ (copyPair env sb db k s).total_files_failed
        = s.total_files_failed + (if (copy_object env sb db k).2 then 0 else 1)
    ∧ (copyPair env sb db k s).attempts = s.attempts ++ [copy_object env sb db k]
    ∧ s.total_files_copied ≤ (sync_loop env cfgs s).total_files_copied
    ∧ s.total_files_failed ≤ (sync_loop env cfgs s).total_files_failed := by
  refine ⟨?_, ?_, ?_, ?_, ?_⟩
  · cases h : (copy_object env sb db k).2 <;> simp [copyPair, h]
  · cases h : (copy_object env sb db k).2 <;> simp [copyPair, h]
  · cases h : (copy_object env sb db k).2 <;> simp [copyPair, h]
  · obtain ⟨l, -, hc, -, -⟩ := sync_loop_shape env cfgs s
    omega
  · obtain ⟨l, -, -, hf, -⟩ := sync_loop_shape env cfgs s
    omega

/-- C9: every copy request issued during a run carries the same key in its
destination `Key` as in its `CopySource` key — copying never renames,
prefixes, or otherwise transforms object keys. -/
theorem copy_never_transforms_keys (env : Env) (cfgs : List BucketConfig) :
    (sync_buckets env cfgs).attempts.all
      (fun a => a.1.key == a.1.copySourceKey) = true := by
  rw [List.all_eq_true]
  intro a ha
  obtain ⟨l, hl, -, -, hk⟩ := sync_buckets_attempts env cfgs
  rw [hl] at ha
  exact beq_iff_eq.mpr (hk a ha)

/-- C10: a plan entry lacking the `source_bucket` or the `destination_buckets`
key makes the per-config step raise a `KeyError`, which the run loop catches:
the state (both counters included) passes through unchanged and the remaining
entries are still processed. -/
theorem missing_config_key_contained (env : Env) (cfg : BucketConfig)
    (s : SyncState) (rest : List BucketConfig)
    (h : cfg.source_bucket = none ∨ cfg.destination_buckets = none) :
    (∃ e, process_bucket_config env cfg s = Except.error e)
    ∧ sync_loop env (cfg :: rest) s = sync_loop env rest s := by
  have he : ∃ e, process_bucket_config env cfg s = Except.error e := by
    cases hsb : cfg.source_bucket with
    | none => exact ⟨_, process_missing_source env cfg s hsb⟩
    | some src =>
        cases h with
        | inl h0 => simp [h0] at hsb
        | inr h0 => exact ⟨_, process_missing_dests env cfg s src hsb h0⟩
  obtain ⟨e, he⟩ := he
  exact ⟨⟨e, he⟩, sync_loop_cons_error env cfg rest s e he⟩

/-- Concrete instance of C10: an entry with a source but no
`destination_buckets` key is caught and the run continues unchanged. -/
theorem missing_config_key_contained_witness :
    (∃ e, process_bucket_config envOk cfgNoDests initState = Except.error e)
    ∧ sync_loop envOk (cfgNoDests :: [cfgSD]) initState
        = sync_loop envOk [cfgSD] initState :=
  missing_config_key_contained envOk cfgNoDests initState [cfgSD] (Or.inr (by rfl))
